import Mathlib

/-!
Shallow embedding of the To-Do-List core (BrandNewMyUserName/To-Do-List):
the Task Collection Manager (`src/ts/taskManager.ts`) and the Persistence
Adapter (`src/unnamed/part_001`, the TypeScript storage module).

State is modelled by explicit passing: every mutating method of the
TypeScript `TaskManager` class becomes a function taking and returning a
`TaskManager` value.  JavaScript numbers used as task ids and timestamps
are modelled by `Int`; `Date.now()` and `new Date().toISOString()` are
passed in as explicit `now`/`iso` parameters.
-/

/-- `TaskItem` interface from `src/unnamed/part_000` (types module):
`{ id: number; text: string; completed: boolean; createdAt: string }`. -/
structure TaskItem where
  id : Int
  text : String
  completed : Bool
  createdAt : String
deriving DecidableEq, Repr

/-- `FilterType = 'all' | 'active' | 'completed'` from the types module. -/
inductive FilterType where
  | all
  | active
  | completed
deriving DecidableEq, Repr

/-- `TaskStatistics` interface from the types module. -/
structure TaskStatistics where
  total : Nat
  active : Nat
  completed : Nat
deriving DecidableEq, Repr

/-- JavaScript's `String.prototype.trim()` builtin, as called by
`createTask` and `addTask`: drops leading and trailing whitespace.
Implemented structurally over the character list so proofs can
evaluate it on concrete strings. -/
def jsTrim (s : String) : String :=
  ⟨((s.data.dropWhile Char.isWhitespace).reverse.dropWhile Char.isWhitespace).reverse⟩

/-- `createTask(text, id?)` from `src/ts/taskManager.ts` lines 14–21.
The body is `id: id || Date.now()`: an omitted id (`none`) and the
falsy number `0` both fall back to `Date.now()`, modelled by the `now`
parameter; `new Date().toISOString()` is modelled by the `iso` parameter. -/
def createTask (text : String) (id : Option Int) (now : Int) (iso : String) : TaskItem :=
  { id := match id with
          | none => now
          | some i => if i = 0 then now else i
    text := jsTrim text
    completed := false
    createdAt := iso }

/-- The private state of the `TaskManager` class:
`tasks: TaskItem[]` and `currentFilter: FilterType`. -/
structure TaskManager where
  tasks : List TaskItem
  currentFilter : FilterType
deriving DecidableEq, Repr

namespace TaskManager

/-- The `TaskManager` constructor: empty task list, filter `'all'`. -/
def init : TaskManager := { tasks := [], currentFilter := .all }

/-- `addTask(text)` (lines 41–49): returns null and leaves the state
unchanged when `!text || !text.trim()` (i.e. the trimmed text is empty),
otherwise pushes `createTask(text)` and returns it. -/
def addTask (m : TaskManager) (text : String) (now : Int) (iso : String) :
    Option TaskItem × TaskManager :=
  if jsTrim text = "" then
    (none, m)
  else
    let task := createTask text none now iso
    (some task, { m with tasks := m.tasks ++ [task] })

/-- `removeTask(id)` (lines 56–60): `this.tasks = this.tasks.filter(task
=> task.id !== id)`; returns whether the length shrank. -/
def removeTask (m : TaskManager) (id : Int) : Bool × TaskManager :=
  let newTasks := m.tasks.filter (fun task => task.id ≠ id)
  (decide (newTasks.length < m.tasks.length), { m with tasks := newTasks })

/-- Helper for `toggleTask`: `this.tasks.find(t => t.id === id)` followed
by the in-place mutation `task.completed = !task.completed`.  The first
task whose id matches is flipped and returned; the rest of the list is
untouched.  Returns the mutated task (if any) and the updated list. -/
def toggleInTasks : List TaskItem → Int → Option TaskItem × List TaskItem
  | [], _ => (none, [])
  | t :: ts, id =>
    if t.id = id then
      let t' := { t with completed := !t.completed }
      (some t', t' :: ts)
    else
      let r := toggleInTasks ts id
      (r.1, t :: r.2)

/-- `toggleTask(id)` (lines 67–74): flips `completed` on the first task
found with this id and returns it, or returns null with no change. -/
def toggleTask (m : TaskManager) (id : Int) : Option TaskItem × TaskManager :=
  let r := toggleInTasks m.tasks id
  (r.1, { m with tasks := r.2 })

/-- `clearCompleted()` (lines 80–84): keeps the non-completed tasks and
returns how many were dropped. -/
def clearCompleted (m : TaskManager) : Nat × TaskManager :=
  let newTasks := m.tasks.filter (fun task => !task.completed)
  (m.tasks.length - newTasks.length, { m with tasks := newTasks })

/-- `getFilteredTasks()` (lines 90–99). -/
def getFilteredTasks (m : TaskManager) : List TaskItem :=
  match m.currentFilter with
  | .active => m.tasks.filter (fun task => !task.completed)
  | .completed => m.tasks.filter (fun task => task.completed)
  | .all => m.tasks

/-- `setFilter(filter)` (lines 105–109): updates the filter only when the
string is one of `'all'`, `'active'`, `'completed'` (the TypeScript cast
`filter as FilterType` is modelled by the string-to-enum match). -/
def setFilter (m : TaskManager) (filter : String) : TaskManager :=
  if filter ∈ ["all", "active", "completed"] then
    { m with currentFilter :=
        match filter with
        | "active" => .active
        | "completed" => .completed
        | _ => .all }
  else m

/-- `getStats()` (lines 115–121). -/
def getStats (m : TaskManager) : TaskStatistics :=
  { total := m.tasks.length
    active := (m.tasks.filter (fun t => !t.completed)).length
    completed := (m.tasks.filter (fun t => t.completed)).length }

/-- `loadTasks(tasks)` (lines 127–129): `this.tasks = Array.isArray(tasks)
? tasks : []`.  In the typed model the argument is always an array, so the
collection is replaced wholesale — no per-task validation happens, matching
the source's trust boundary. -/
def loadTasks (m : TaskManager) (tasks : List TaskItem) : TaskManager :=
  { m with tasks := tasks }

/-- `getAllTasks()` (lines 135–137). -/
def getAllTasks (m : TaskManager) : List TaskItem :=
  m.tasks

end TaskManager

/-!
Persistence adapter (`src/unnamed/part_001`).  The single localStorage
slot under `STORAGE_KEY` is modelled structurally: `JSON.stringify` /
`JSON.parse` are inverse on the values the adapter writes, so the stored
text is represented by the JSON value it parses to, with a separate
constructor for stored text whose parse throws.
-/

/-- Structured data produced by `JSON.parse`. -/
inductive JsonValue where
  | null
  | bool (b : Bool)
  | num (n : Int)
  | str (s : String)
  | arr (items : List JsonValue)
  | obj (fields : List (String × JsonValue))

/-- `Array.isArray` on a parsed value. -/
def JsonValue.isArr : JsonValue → Bool
  | .arr _ => true
  | _ => false

/-- The text stored under `STORAGE_KEY`, by what `JSON.parse` does to it:
either it throws (`malformed`) or it yields a structured value. -/
inductive StoredValue where
  | malformed
  | json (v : JsonValue)

/-- The localStorage slot for `STORAGE_KEY`: `none` when the key is
absent (`getItem` returns null). -/
abbrev Storage : Type := Option StoredValue

/-- `JSON.stringify` of one `TaskItem` object, structurally. -/
def taskToJson (t : TaskItem) : JsonValue :=
  .obj [("id", .num t.id), ("text", .str t.text),
        ("completed", .bool t.completed), ("createdAt", .str t.createdAt)]

/-- Reading one parsed array element back as a `TaskItem`.  The source
performs an unchecked cast (`JSON.parse(serialized) as TaskItem[]`); in
the typed model an element decodes exactly when it has the task object
shape the adapter itself writes, which is the only case the spec's
round-trip property exercises. -/
def jsonToTask : JsonValue → Option TaskItem
  | .obj [("id", .num i), ("text", .str s),
          ("completed", .bool b), ("createdAt", .str c)] =>
      some { id := i, text := s, completed := b, createdAt := c }
  | _ => none

/-- `saveTasks(tasks)` (lines 14–21): `JSON.stringify(tasks)` is written
under the fixed key, overwriting whatever was there.  Stringify of a task
array never throws, and the written text parses back to the array of the
tasks' JSON objects. -/
def saveTasks (tasks : List TaskItem) : Storage :=
  some (.json (.arr (tasks.map taskToJson)))

/-- `loadTasks()` of the storage module (lines 27–39): absent key → `[]`;
parse throws → caught, `[]`; parsed value not an array → `[]`; otherwise
the parsed array is returned (elements read back as tasks). -/
def loadStoredTasks : Storage → List TaskItem
  | none => []
  | some .malformed => []
  | some (.json (.arr items)) => items.filterMap jsonToTask
  | some (.json _) => []

/-!  ## Verified properties  -/

/-- Decoding inverts the adapter's own encoding of a single task. -/
theorem jsonToTask_taskToJson (t : TaskItem) : jsonToTask (taskToJson t) = some t := rfl

/-- Decoding inverts the adapter's own encoding of a task array. -/
theorem filterMap_jsonToTask_map (ts : List TaskItem) :
    (ts.map taskToJson).filterMap jsonToTask = ts := by
  induction ts with
  | nil => rfl
  | cons t ts ih =>
    simp only [List.map_cons, List.filterMap_cons, jsonToTask_taskToJson, ih]

/-- C1: saving any task sequence with the persistence adapter and then
loading returns a sequence equal by value to the original, including for
the empty sequence. -/
theorem load_save_roundtrip (ts : List TaskItem) :
    loadStoredTasks (saveTasks ts) = ts :=
  filterMap_jsonToTask_map ts

/-- C7: when the stored value is absent, malformed (its parse throws), or
not array-shaped, `loadTasks` of the storage module returns the empty
sequence; the model is a total function, so no exception escapes. -/
theorem load_corrupted_empty (st : Storage)
    (h : st = none ∨ st = some .malformed ∨
         ∃ v, st = some (.json v) ∧ v.isArr = false) :
    loadStoredTasks st = [] := by
  rcases h with h | h | ⟨v, h, hv⟩
  · rw [h]; rfl
  · rw [h]; rfl
  · rw [h]
    cases v with
    | arr items => simp [JsonValue.isArr] at hv
    | null => rfl
    | bool b => rfl
    | num n => rfl
    | str s => rfl
    | obj fields => rfl

theorem load_corrupted_empty_witness :
    loadStoredTasks (some (.json (.num 42))) = [] :=
  load_corrupted_empty _ (Or.inr (Or.inr ⟨.num 42, rfl, rfl⟩))

/-- C2: `addTask` on text that trims to empty returns null and leaves the
manager unchanged; on any other text it appends exactly one task — with
the trimmed text and `completed = false` — to the end and returns it. -/
theorem addTask_spec (m : TaskManager) (s : String) (now : Int) (iso : String) :
    (jsTrim s = "" → m.addTask s now iso = (none, m)) ∧
    (jsTrim s ≠ "" →
      ∃ t, m.addTask s now iso = (some t, { m with tasks := m.tasks ++ [t] }) ∧
        t.text = jsTrim s ∧ t.completed = false ∧
        (m.addTask s now iso).2.tasks.length = m.tasks.length + 1) := by
  constructor
  · intro h
    simp [TaskManager.addTask, h]
  · intro h
    refine ⟨createTask s none now iso, ?_, rfl, rfl, ?_⟩ <;>
      simp [TaskManager.addTask, h]

theorem addTask_spec_witness :
    TaskManager.init.addTask " " 7 "d" = (none, TaskManager.init) ∧
    ∃ t, TaskManager.init.addTask " a " 7 "d" =
          (some t, { TaskManager.init with tasks := TaskManager.init.tasks ++ [t] }) ∧
        t.text = jsTrim " a " ∧ t.completed = false ∧
        (TaskManager.init.addTask " a " 7 "d").2.tasks.length =
          TaskManager.init.tasks.length + 1 :=
  ⟨(addTask_spec TaskManager.init " " 7 "d").1 (by decide),
   (addTask_spec TaskManager.init " a " 7 "d").2 (by decide)⟩

/-- C10: `createTask` with an explicitly supplied id of `0` ignores it
(`id || Date.now()` treats `0` as falsy) and uses the current timestamp
instead; any non-zero supplied id is kept. -/
theorem createTask_id_zero_fallback (s : String) (now : Int) (iso : String) (i : Int) :
    (createTask s (some 0) now iso).id = now ∧
    (i ≠ 0 → (createTask s (some i) now iso).id = i) := by
  constructor
  · rfl
  · intro h
    simp [createTask, h]

theorem createTask_id_zero_fallback_witness :
    (createTask "a" (some 0) 99 "d").id = 99 ∧
    (createTask "a" (some 5) 99 "d").id = 5 :=
  ⟨(createTask_id_zero_fallback "a" 99 "d" 5).1,
   (createTask_id_zero_fallback "a" 99 "d" 5).2 (by decide)⟩

/-- Splitting a list's length by a Boolean predicate. -/
theorem length_filter_not_add_length_filter (l : List TaskItem) (p : TaskItem → Bool) :
    (l.filter (fun x => !p x)).length + (l.filter p).length = l.length := by
  induction l with
  | nil => rfl
  | cons a l ih =>
    by_cases h : p a <;> simp [List.filter_cons, h] <;> omega

/-- C6: `clearCompleted` keeps exactly the non-completed tasks, in their
original order, and returns the number of completed tasks removed; the
current filter is untouched. -/
theorem clearCompleted_spec (m : TaskManager) :
    (m.clearCompleted).2.tasks = m.tasks.filter (fun t => !t.completed) ∧
    (m.clearCompleted).1 = (m.tasks.filter (fun t => t.completed)).length ∧
    (m.clearCompleted).2.currentFilter = m.currentFilter := by
  refine ⟨rfl, ?_, rfl⟩
  have h := length_filter_not_add_length_filter m.tasks (fun t => t.completed)
  simp only [TaskManager.clearCompleted]
  omega

/-- C8: `setFilter` with a string outside `{all, active, completed}` is a
no-op (no error is signalled, and `getFilteredTasks` is unaffected); with
one of the three valid strings it sets the corresponding filter. -/
theorem setFilter_spec (m : TaskManager) (v : String) :
    (v ≠ "all" → v ≠ "active" → v ≠ "completed" →
      m.setFilter v = m ∧
      (m.setFilter v).getFilteredTasks = m.getFilteredTasks) ∧
    (v = "all" → (m.setFilter v).currentFilter = .all) ∧
    (v = "active" → (m.setFilter v).currentFilter = .active) ∧
    (v = "completed" → (m.setFilter v).currentFilter = .completed) := by
  refine ⟨?_, ?_, ?_, ?_⟩
  · intro h1 h2 h3
    have hv : v ∉ ["all", "active", "completed"] := by simp [h1, h2, h3]
    simp [TaskManager.setFilter, hv]
  · intro h; subst h; rfl
  · intro h; subst h; rfl
  · intro h; subst h; rfl

theorem setFilter_spec_witness :
    (TaskManager.init.setFilter "bogus" = TaskManager.init ∧
      (TaskManager.init.setFilter "bogus").getFilteredTasks =
        TaskManager.init.getFilteredTasks) ∧
    (TaskManager.init.setFilter "active").currentFilter = FilterType.active :=
  ⟨(setFilter_spec TaskManager.init "bogus").1 (by decide) (by decide) (by decide),
   (setFilter_spec TaskManager.init "active").2.2.1 rfl⟩

/-- Flipping the first id-match twice restores the task list. -/
theorem toggleInTasks_toggleInTasks (ts : List TaskItem) (id : Int) :
    (TaskManager.toggleInTasks (TaskManager.toggleInTasks ts id).2 id).2 = ts := by
  induction ts with
  | nil => rfl
  | cons t ts ih =>
    by_cases h : t.id = id
    · cases t with
      | mk i x c a =>
        have h' : i = id := h
        subst h'
        simp [TaskManager.toggleInTasks]
    · simp [TaskManager.toggleInTasks, h, ih]

/-- C9: for a task in the collection, toggling its id twice in succession
returns the manager to its original state (the double toggle is the
identity on the collection). -/
theorem toggleTask_twice_identity (m : TaskManager) (t : TaskItem)
    (h : t ∈ m.tasks) :
    ((m.toggleTask t.id).2.toggleTask t.id).2 = m := by
  cases m with
  | mk tasks filter =>
    simp [TaskManager.toggleTask, toggleInTasks_toggleInTasks]

theorem toggleTask_twice_identity_witness :
    (((TaskManager.mk [TaskItem.mk 1 "a" false "d"] .all).toggleTask
        (TaskItem.mk 1 "a" false "d").id).2.toggleTask
        (TaskItem.mk 1 "a" false "d").id).2 =
      TaskManager.mk [TaskItem.mk 1 "a" false "d"] .all :=
  toggleTask_twice_identity _ (TaskItem.mk 1 "a" false "d") (by decide)

/-- When no task carries the id, the toggle scan changes nothing. -/
theorem toggleInTasks_not_mem (ts : List TaskItem) (id : Int)
    (h : ∀ u ∈ ts, u.id ≠ id) :
    TaskManager.toggleInTasks ts id = (none, ts) := by
  induction ts with
  | nil => rfl
  | cons t ts ih =>
    have ht : t.id ≠ id := h t (List.mem_cons_self t ts)
    have ih' := ih (fun u hu => h u (List.mem_cons_of_mem t hu))
    simp [TaskManager.toggleInTasks, ht, ih']

/-- The toggle scan flips exactly the first id-match: if position `i`
holds a matching task and no earlier position does, the scan returns that
task flipped and the list with only position `i` replaced. -/
theorem toggleInTasks_first (ts : List TaskItem) (id : Int) (i : Nat)
    (t : TaskItem) (hget : ts[i]? = some t) (hid : t.id = id)
    (hfirst : ∀ j u, j < i → ts[j]? = some u → u.id ≠ id) :
    TaskManager.toggleInTasks ts id =
      (some { t with completed := !t.completed },
       ts.set i { t with completed := !t.completed }) := by
  induction ts generalizing i with
  | nil => simp at hget
  | cons a ts ih =>
    cases i with
    | zero =>
      have ha : a = t := by simpa using hget
      subst ha
      simp [TaskManager.toggleInTasks, hid]
    | succ n =>
      have ha : a.id ≠ id := hfirst 0 a (Nat.succ_pos n) (by simp)
      have ih' := ih n (by simpa using hget)
        (fun j u hj hju => hfirst (j + 1) u (Nat.succ_lt_succ hj) (by simpa using hju))
      simp [TaskManager.toggleInTasks, ha, ih']

/-- C4 (amended): `toggleTask(id)` flips the **first** task in the
sequence whose id matches, returns that task mutated, and leaves every
other position — and the length and order — unchanged (`List.set`); for
an id matching no task it returns null and leaves the manager unchanged.
For a task whose id is not shared by any earlier task this is exactly the
claimed per-task flip-and-frame behaviour. -/
theorem toggleTask_spec (m : TaskManager) (id : Int) :
    (∀ i t, m.tasks[i]? = some t → t.id = id →
      (∀ j u, j < i → m.tasks[j]? = some u → u.id ≠ id) →
      m.toggleTask id =
        (some { t with completed := !t.completed },
         { m with tasks := m.tasks.set i { t with completed := !t.completed } })) ∧
    ((∀ u ∈ m.tasks, u.id ≠ id) → m.toggleTask id = (none, m)) := by
  constructor
  · intro i t hget hid hfirst
    have h := toggleInTasks_first m.tasks id i t hget hid hfirst
    simp [TaskManager.toggleTask, h]
  · intro h
    have h2 := toggleInTasks_not_mem m.tasks id h
    simp [TaskManager.toggleTask, h2]

theorem toggleTask_spec_witness :
    (TaskManager.mk [TaskItem.mk 1 "a" false "d"] .all).toggleTask 1 =
      (some (TaskItem.mk 1 "a" true "d"),
       TaskManager.mk [TaskItem.mk 1 "a" true "d"] .all) ∧
    (TaskManager.mk [TaskItem.mk 1 "a" false "d"] .all).toggleTask 2 =
      (none, TaskManager.mk [TaskItem.mk 1 "a" false "d"] .all) :=
  ⟨(toggleTask_spec (TaskManager.mk [TaskItem.mk 1 "a" false "d"] .all) 1).1
      0 (TaskItem.mk 1 "a" false "d") rfl rfl
      (fun j u hj _ => absurd hj (Nat.not_lt_zero j)),
   (toggleTask_spec (TaskManager.mk [TaskItem.mk 1 "a" false "d"] .all) 2).2
      (by decide)⟩

/-- C4 (counterexample): with two distinct tasks sharing id 1, toggling
by the id of the *second* task flips the first task instead: the claimed
"flip `t`, frame everything else" behaviour fails for the second task. -/
theorem toggleTask_counterexample :
    TaskItem.mk 1 "b" false "d" ∈
      (TaskManager.mk [TaskItem.mk 1 "a" false "d", TaskItem.mk 1 "b" false "d"]
        .all).tasks ∧
    ((TaskManager.mk [TaskItem.mk 1 "a" false "d", TaskItem.mk 1 "b" false "d"]
        .all).toggleTask (TaskItem.mk 1 "b" false "d").id).1 ≠
      some (TaskItem.mk 1 "b" true "d") ∧
    ((TaskManager.mk [TaskItem.mk 1 "a" false "d", TaskItem.mk 1 "b" false "d"]
        .all).toggleTask (TaskItem.mk 1 "b" false "d").id).2.tasks ≠
      [TaskItem.mk 1 "a" false "d", TaskItem.mk 1 "b" true "d"] := by
  decide

/-- Counting tasks by id equals counting the id in the projected list. -/
theorem countP_map_id_count (ts : List TaskItem) (id : Int) :
    ts.countP (fun t => t.id = id) = (ts.map TaskItem.id).count id := by
  induction ts with
  | nil => rfl
  | cons t ts ih =>
    by_cases h : t.id = id <;>
      simp [List.countP_cons, List.count_cons, h, ih]

/-- C5 (amended): `removeTask(id)` with no matching task returns false
and leaves the manager unchanged; with at least one match it returns true
and removes **every** task bearing that id, so the length drops by the
number of matches — which is exactly 1 whenever ids are unique in the
collection. -/
theorem removeTask_spec (m : TaskManager) (id : Int) :
    ((∀ t ∈ m.tasks, t.id ≠ id) → m.removeTask id = (false, m)) ∧
    ((∃ t ∈ m.tasks, t.id = id) →
      (m.removeTask id).1 = true ∧
      (m.removeTask id).2.tasks.length + m.tasks.countP (fun t => t.id = id) =
        m.tasks.length) ∧
    ((m.tasks.map TaskItem.id).Nodup → (∃ t ∈ m.tasks, t.id = id) →
      (m.removeTask id).2.tasks.length + 1 = m.tasks.length) := by
  have hpred : (fun t : TaskItem => decide (t.id ≠ id)) =
      (fun t : TaskItem => !(decide (t.id = id))) := by
    funext t
    exact decide_not
  have hsplit : (m.tasks.filter (fun t => t.id ≠ id)).length
      + m.tasks.countP (fun t => t.id = id) = m.tasks.length := by
    rw [hpred, List.countP_eq_length_filter]
    exact length_filter_not_add_length_filter m.tasks (fun t => decide (t.id = id))
  refine ⟨?_, ?_, ?_⟩
  · intro h
    have hf : m.tasks.filter (fun t => t.id ≠ id) = m.tasks :=
      List.filter_eq_self.mpr (fun a ha => by simpa using h a ha)
    simp only [TaskManager.removeTask, hf]
    simp
  · rintro ⟨t, ht, hid⟩
    have hpos : 0 < m.tasks.countP (fun t => t.id = id) :=
      List.countP_pos_iff.mpr ⟨t, ht, by simpa using hid⟩
    refine ⟨?_, hsplit⟩
    simp only [TaskManager.removeTask, decide_eq_true_eq]
    omega
  · rintro hnodup ⟨t, ht, hid⟩
    have hmem : id ∈ m.tasks.map TaskItem.id := List.mem_map.mpr ⟨t, ht, hid⟩
    have h1 : (m.tasks.map TaskItem.id).count id = 1 :=
      List.count_eq_one_of_mem hnodup hmem
    have h2 := countP_map_id_count m.tasks id
    have h3 : (m.removeTask id).2.tasks.length =
        (m.tasks.filter (fun t => t.id ≠ id)).length := rfl
    omega

theorem removeTask_spec_witness :
    (TaskManager.mk [TaskItem.mk 1 "a" false "d"] .all).removeTask 2 =
      (false, TaskManager.mk [TaskItem.mk 1 "a" false "d"] .all) ∧
    ((TaskManager.mk [TaskItem.mk 1 "a" false "d"] .all).removeTask 1).1 = true ∧
    ((TaskManager.mk [TaskItem.mk 1 "a" false "d"] .all).removeTask 1).2.tasks.length + 1 =
      (TaskManager.mk [TaskItem.mk 1 "a" false "d"] .all).tasks.length :=
  ⟨(removeTask_spec (TaskManager.mk [TaskItem.mk 1 "a" false "d"] .all) 2).1
      (by decide),
   ((removeTask_spec (TaskManager.mk [TaskItem.mk 1 "a" false "d"] .all) 1).2.1
      (by decide)).1,
   (removeTask_spec (TaskManager.mk [TaskItem.mk 1 "a" false "d"] .all) 1).2.2
      (by decide) (by decide)⟩

/-- C5 (counterexample): a collection reachable through `loadTasks` can
hold two tasks with the same id; `removeTask` then removes both, so the
length drops by 2, not exactly 1. -/
theorem removeTask_counterexample :
    (TaskManager.mk [TaskItem.mk 1 "a" false "d", TaskItem.mk 1 "b" false "d"]
        .all).tasks.length = 2 ∧
    TaskItem.mk 1 "a" false "d" ∈
      (TaskManager.mk [TaskItem.mk 1 "a" false "d", TaskItem.mk 1 "b" false "d"]
        .all).tasks ∧
    (TaskItem.mk 1 "a" false "d").id = 1 ∧
    ((TaskManager.mk [TaskItem.mk 1 "a" false "d", TaskItem.mk 1 "b" false "d"]
        .all).removeTask 1).1 = true ∧
    ((TaskManager.mk [TaskItem.mk 1 "a" false "d", TaskItem.mk 1 "b" false "d"]
        .all).removeTask 1).2.tasks.length = 0 := by
  decide

/-- The spec's collection invariant: `id` is unique within a collection. -/
abbrev idsUnique (m : TaskManager) : Prop :=
  (m.tasks.map TaskItem.id).Nodup

/-- Manager states reachable from the constructor's initial state through
the public operations. -/
inductive Reachable : TaskManager → Prop where
  | init : Reachable TaskManager.init
  | addTask (m : TaskManager) (s : String) (now : Int) (iso : String) :
      Reachable m → Reachable (m.addTask s now iso).2
  | removeTask (m : TaskManager) (id : Int) :
      Reachable m → Reachable (m.removeTask id).2
  | toggleTask (m : TaskManager) (id : Int) :
      Reachable m → Reachable (m.toggleTask id).2
  | clearCompleted (m : TaskManager) :
      Reachable m → Reachable (m.clearCompleted).2
  | loadTasks (m : TaskManager) (ts : List TaskItem) :
      Reachable m → Reachable (m.loadTasks ts)
  | setFilter (m : TaskManager) (v : String) :
      Reachable m → Reachable (m.setFilter v)

/-- C3 (counterexample): `loadTasks` replaces the collection with any
supplied array, unvalidated, so a reachable state can hold two distinct
tasks with the same id — the uniqueness invariant fails. -/
theorem idsUnique_counterexample :
    Reachable (TaskManager.init.loadTasks
      [TaskItem.mk 1 "a" false "d", TaskItem.mk 1 "b" false "d"]) ∧
    ¬ idsUnique (TaskManager.init.loadTasks
      [TaskItem.mk 1 "a" false "d", TaskItem.mk 1 "b" false "d"]) :=
  ⟨Reachable.loadTasks _ _ Reachable.init, by decide⟩

/-- The toggle scan never changes any task's id. -/
theorem toggleInTasks_map_id (ts : List TaskItem) (id : Int) :
    (TaskManager.toggleInTasks ts id).2.map TaskItem.id = ts.map TaskItem.id := by
  induction ts with
  | nil => rfl
  | cons t ts ih =>
    by_cases h : t.id = id <;> simp [TaskManager.toggleInTasks, h, ih]

/-- `setFilter` never touches the task list. -/
theorem setFilter_tasks (m : TaskManager) (v : String) :
    (m.setFilter v).tasks = m.tasks := by
  by_cases hv : v ∈ ["all", "active", "completed"] <;>
    simp [TaskManager.setFilter, hv]

/-- C3 (amended): id-uniqueness is preserved by every operation under the
provisos the code actually needs — `addTask` only when the generated
timestamp id is not already present, and `loadTasks` only when the
supplied array itself has unique ids; `removeTask`, `toggleTask`,
`clearCompleted` and `setFilter` preserve it unconditionally.  Without
those provisos the invariant fails (see the counterexample). -/
theorem idsUnique_preserved (m : TaskManager) (h : idsUnique m) :
    (∀ s now iso, now ∉ m.tasks.map TaskItem.id →
      idsUnique (m.addTask s now iso).2) ∧
    (∀ id, idsUnique (m.removeTask id).2) ∧
    (∀ id, idsUnique (m.toggleTask id).2) ∧
    idsUnique (m.clearCompleted).2 ∧
    (∀ ts, (ts.map TaskItem.id).Nodup → idsUnique (m.loadTasks ts)) ∧
    (∀ v, idsUnique (m.setFilter v)) := by
  refine ⟨?_, ?_, ?_, ?_, ?_, ?_⟩
  · intro s now iso hnotin
    by_cases hs : jsTrim s = ""
    · simpa [TaskManager.addTask, hs] using h
    · simp only [idsUnique, TaskManager.addTask, hs, if_false, List.map_append]
      rw [List.nodup_append]
      refine ⟨h, List.nodup_singleton _, ?_⟩
      intro a ha hb
      simp [createTask] at hb
      subst hb
      exact hnotin ha
  · intro id
    have hsub : (m.removeTask id).2.tasks.Sublist m.tasks :=
      List.filter_sublist m.tasks
    exact List.Nodup.sublist (hsub.map TaskItem.id) h
  · intro id
    have := toggleInTasks_map_id m.tasks id
    simpa [idsUnique, TaskManager.toggleTask, this] using h
  · have hsub : (m.clearCompleted).2.tasks.Sublist m.tasks :=
      List.filter_sublist m.tasks
    exact List.Nodup.sublist (hsub.map TaskItem.id) h
  · intro ts hts
    exact hts
  · intro v
    simpa [idsUnique, setFilter_tasks m v] using h

theorem idsUnique_preserved_witness :
    idsUnique ((TaskManager.init.loadTasks [TaskItem.mk 1 "a" false "d"]).addTask
      "b" 2 "d").2 :=
  (idsUnique_preserved (TaskManager.init.loadTasks [TaskItem.mk 1 "a" false "d"])
      (by decide)).1 "b" 2 "d" (by decide)
